import Mathlib

/-!
Verification development for the agent orchestration pipeline of the
PWB-AI-Agent repository (src/agents/graph.py and src/agents/llm.py).

The Python code is shallowly embedded: each node of the LangGraph state
machine becomes a pure Lean function on an explicit state record, the
three regular expressions of the source are embedded as specialised
backtracking matchers that follow Python `re` semantics (leftmost search,
greedy quantifiers try the longer consumption first, lazy quantifiers the
shorter, alternation in written order), and the external collaborators
(vector search, LLM backend) are function parameters.

Character classes are modelled at ASCII fidelity: Python's `\s`, `\w`,
`\d`, `str.lower`, `str.strip`, `str.title` act on the ASCII range exactly
as the functions below; their extra Unicode behaviour is not needed by any
input considered here.
-/

namespace PWB

/-- Python `\s` / `str.strip()` whitespace (ASCII range): space, tab,
newline, carriage return, vertical tab, form feed. -/
def isPySpace (c : Char) : Bool :=
  c = ' ' || c = '\t' || c = '\n' || c = '\r' || c = Char.ofNat 11 || c = Char.ofNat 12

/-- Python `\w` word character (ASCII range): letters, digits, underscore. -/
def isWordChar (c : Char) : Bool :=
  c.isAlphanum || c = '_'

/-- Python `str.lower()` (ASCII fidelity), as a structural map over the
character list (`String.toLower` itself is semantically identical but its
internal recursion does not reduce well in the kernel). -/
def pyLower (s : String) : String :=
  ⟨s.data.map Char.toLower⟩

/-- Python `str.strip()`: drop leading and trailing whitespace. -/
def pyStrip (s : String) : String :=
  ⟨((s.data.dropWhile isPySpace).reverse.dropWhile isPySpace).reverse⟩

/-- Python `str.title()` on a character list: a letter that follows a
non-letter is uppercased, a letter that follows a letter is lowercased.
The boolean argument records whether the previous character was a letter. -/
def pyTitleAux : List Char → Bool → List Char
  | [], _ => []
  | c :: cs, prevAlpha =>
    (if prevAlpha then c.toLower else c.toUpper) :: pyTitleAux cs c.isAlpha

/-- Python `str.title()`. -/
def pyTitle (s : String) : String :=
  ⟨pyTitleAux s.data false⟩

/-- Python `str(bool)` as interpolated into an f-string. -/
def pyBool : Bool → String
  | true => "True"
  | false => "False"

/-- Does `needle` occur at the head of `hay`? -/
def matchesAt : List Char → List Char → Bool
  | [], _ => true
  | _ :: _, [] => false
  | p :: ps, c :: cs => p = c && matchesAt ps cs

/-- Does `needle` occur contiguously anywhere in `hay`? -/
def hasSubList (needle hay : List Char) : Bool :=
  match hay with
  | [] => matchesAt needle []
  | _ :: rest => matchesAt needle hay || hasSubList needle rest

/-- Python `needle in hay` on strings: contiguous substring test. -/
def containsSub (hay needle : String) : Bool :=
  hasSubList needle.data hay.data

/-- Python `dict.get(k, d)` for string-keyed, string-valued mappings
(association list model). -/
def pyDictGet (m : List (String × String)) (k d : String) : String :=
  match m.find? (fun p => p.1 == k) with
  | some p => p.2
  | none => d

/-! ## The item-action regular expression

`action_item_re = (pause|unpause|resume)\s+'?\"?([^'\"]+?)'?\"?\b`
with `re.IGNORECASE`, used with `.search` (graph.py line 123).

The matcher below follows the pattern element by element.  Each function
matches one suffix of the pattern; backtracking order is Python's:
greedy `\s+` and `'?`/`\"?` try consuming first, the lazy group
`([^'\"]+?)` tries the shortest extension first, alternation tries
alternatives in written order, and search tries positions left to right.
Only the captured groups matter to the caller (`action_node` reads
`group(1)` and `group(2)`), so the tail of the pattern after the lazy
group is modelled as a boolean success test. -/

/-- Case-insensitive literal match of a (lowercase) pattern word against
the head of the input; returns the matched original characters and the
rest of the input. -/
def ciMatch : List Char → List Char → Option (List Char × List Char)
  | [], cs => some ([], cs)
  | _ :: _, [] => none
  | p :: ps, c :: cs =>
    if c.toLower = p then (ciMatch ps cs).map (fun pr => (c :: pr.1, pr.2)) else none

/-- Word-boundary test `\b` between a last consumed character `p` and the
remaining input: true when exactly one side is a word character (end of
input counts as a non-word side). -/
def atWordEdge (p : Char) (cs : List Char) : Bool :=
  match cs with
  | [] => isWordChar p
  | c :: _ => isWordChar p != isWordChar c

/-- Pattern suffix `\"?\b` after the lazy group, with last consumed
character `p`: greedily try to consume a double quote, else match the
boundary in place. -/
def itemDq (p : Char) (cs : List Char) : Bool :=
  match cs with
  | '"' :: rest => atWordEdge '"' rest || atWordEdge p ('"' :: rest)
  | _ => atWordEdge p cs

/-- Pattern suffix `'?\"?\b` after the lazy group. -/
def itemSq (p : Char) (cs : List Char) : Bool :=
  match cs with
  | '\'' :: rest => itemDq '\'' rest || itemDq p ('\'' :: rest)
  | _ => itemDq p cs

/-- The lazy capture group `([^'\"]+?)` followed by `'?\"?\b`: consume
characters (excluding quotes) one at a time, testing the pattern tail
after each; the first success yields the captured text.  `acc` holds the
consumed characters in reverse. -/
def itemGroup : List Char → List Char → Option String
  | _, [] => none
  | acc, c :: rest =>
    if c = '\'' || c = '"' then none
    else if itemSq c rest then some ⟨(c :: acc).reverse⟩
    else itemGroup (c :: acc) rest

/-- Pattern suffix `\"?([^'\"]+?)'?\"?\b`: greedily try to consume an
opening double quote first. -/
def itemOpenDq (cs : List Char) : Option String :=
  match cs with
  | '"' :: rest => (itemGroup [] rest).orElse (fun _ => itemGroup [] ('"' :: rest))
  | _ => itemGroup [] cs

/-- Pattern suffix `'?\"?([^'\"]+?)'?\"?\b`. -/
def itemOpenSq (cs : List Char) : Option String :=
  match cs with
  | '\'' :: rest => (itemOpenDq rest).orElse (fun _ => itemOpenDq ('\'' :: rest))
  | _ => itemOpenDq cs

/-- Greedy `\s*` before the opening quotes (the optional part of `\s+`):
consume further whitespace first, and on failure fall back to matching
the rest of the pattern here (a whitespace character can also be consumed
by the capture group). -/
def itemSpacesStar : List Char → Option String
  | [] => itemOpenSq []
  | c :: rest =>
    if isPySpace c then (itemSpacesStar rest).orElse (fun _ => itemOpenSq (c :: rest))
    else itemOpenSq (c :: rest)

/-- Pattern suffix `\s+'?\"?([^'\"]+?)'?\"?\b`: one mandatory whitespace
character, then the greedy remainder. -/
def itemSpacesPlus : List Char → Option String
  | [] => none
  | c :: rest => if isPySpace c then itemSpacesStar rest else none

/-- One alternative of group 1 followed by the pattern tail; returns
(matched verb text as in the input, captured group 2). -/
def itemVerb (v : String) (cs : List Char) : Option (String × String) :=
  match ciMatch v.data cs with
  | some pr => (itemSpacesPlus pr.2).map (fun item => (⟨pr.1⟩, item))
  | none => none

/-- The full pattern anchored at the current position: alternatives of
group 1 in written order `pause|unpause|resume`. -/
def itemTryAt (cs : List Char) : Option (String × String) :=
  (itemVerb "pause" cs).orElse fun _ =>
    (itemVerb "unpause" cs).orElse fun _ =>
      itemVerb "resume" cs

/-- `re.search` for `action_item_re`: leftmost position wins. -/
def itemSearch : List Char → Option (String × String)
  | [] => itemTryAt []
  | c :: rest => (itemTryAt (c :: rest)).orElse (fun _ => itemSearch rest)

/-! ## The hours regular expression

`action_hours_re = (update|set|change)\s+(opening\s+)?hours(.*)`
with `re.IGNORECASE`, used with `.search` (graph.py line 124).
`action_node` reads `group(0)`, the full matched span, so each function
returns the matched characters.  The greedy `\s+` runs are forced to
their maximal extent here (the following literal starts with a non-space
character, so giving whitespace back can never rescue a failed match),
and greedy `.*` without DOTALL simply runs to the next newline or the end
of the input with nothing after it to fail. -/

/-- Maximal run of `\s` characters: (consumed, rest). -/
def takeSpaces : List Char → List Char × List Char
  | [] => ([], [])
  | c :: rest =>
    if isPySpace c then
      let pr := takeSpaces rest
      (c :: pr.1, pr.2)
    else ([], c :: rest)

/-- Greedy `.*` without DOTALL: everything up to (excluding) the first
newline, or the whole input. -/
def dotStarLine : List Char → List Char
  | [] => []
  | c :: rest => if c = '\n' then [] else c :: dotStarLine rest

/-- Pattern suffix `hours(.*)`: the literal (case-insensitively) then the
greedy rest of the line; returns the matched span. -/
def hoursLit (cs : List Char) : Option (List Char) :=
  match ciMatch "hours".data cs with
  | some pr => some (pr.1 ++ dotStarLine pr.2)
  | none => none

/-- Pattern suffix `\s+(opening\s+)?hours(.*)`: mandatory whitespace,
then the optional group greedily (with it first, without it on failure). -/
def hoursAfterVerb (cs : List Char) : Option (List Char) :=
  let pr := takeSpaces cs
  if pr.1.isEmpty then none
  else
    let withOpening : Option (List Char) :=
      match ciMatch "opening".data pr.2 with
      | some po =>
        let pr2 := takeSpaces po.2
        if pr2.1.isEmpty then none
        else (hoursLit pr2.2).map (fun m => pr.1 ++ po.1 ++ pr2.1 ++ m)
      | none => none
    withOpening.orElse (fun _ => (hoursLit pr.2).map (fun m => pr.1 ++ m))

/-- One alternative of group 1 followed by the pattern tail; returns the
full matched span `group(0)`. -/
def hoursVerb (v : String) (cs : List Char) : Option (List Char) :=
  match ciMatch v.data cs with
  | some pr => (hoursAfterVerb pr.2).map (fun m => pr.1 ++ m)
  | none => none

/-- The full hours pattern anchored at the current position: alternatives
in written order `update|set|change`. -/
def hoursTryAt (cs : List Char) : Option (List Char) :=
  (hoursVerb "update" cs).orElse fun _ =>
    (hoursVerb "set" cs).orElse fun _ =>
      hoursVerb "change" cs

/-- `re.search` for `action_hours_re`: leftmost position wins. -/
def hoursSearch : List Char → Option (List Char)
  | [] => hoursTryAt []
  | c :: rest => (hoursTryAt (c :: rest)).orElse (fun _ => hoursSearch rest)

/-! ## The grounding-check regular expression

`re.search(r"\[[^\]]+ p\d+\]", answer)` (graph.py line 114).  Only the
boolean success matters (`bool(re.search(...))`). -/

/-- Pattern suffix `\]` (after the greedy digits). -/
def citBracket (cs : List Char) : Bool :=
  match cs with
  | c :: _ => c = ']'
  | [] => false

/-- Greedy `\d*\]`: consume further digits first, fall back to the
closing bracket. -/
def citDigitsStar : List Char → Bool
  | [] => citBracket []
  | c :: rest =>
    if c.isDigit then (citDigitsStar rest || citBracket (c :: rest))
    else citBracket (c :: rest)

/-- Pattern suffix `\d+\]`: one mandatory digit then the greedy rest. -/
def citDigitsPlus : List Char → Bool
  | [] => false
  | c :: rest => c.isDigit && citDigitsStar rest

/-- Pattern suffix ` p\d+\]` after the bracketed token: the literal
space, the literal `p`, then the digits and closing bracket. -/
def citTail : List Char → Bool
  | c1 :: c2 :: rest => c1 = ' ' && c2 = 'p' && citDigitsPlus rest
  | _ => false

/-- Greedy `[^\]]*` continuation inside the brackets: consume further
non-`]` characters first, fall back to the tail at the current spot. -/
def citInnerStar : List Char → Bool
  | [] => citTail []
  | c :: rest =>
    if c = ']' then citTail (c :: rest)
    else (citInnerStar rest || citTail (c :: rest))

/-- Pattern suffix `[^\]]+ p\d+\]`: one mandatory non-`]` character then
the greedy rest. -/
def citInnerPlus : List Char → Bool
  | [] => false
  | c :: rest => c ≠ ']' && citInnerStar rest

/-- The full citation pattern anchored at the current position: the
literal `\[` then the inner token, space, page and closing bracket. -/
def citTryAt : List Char → Bool
  | c :: rest => c = '[' && citInnerPlus rest
  | [] => false

/-- `re.search` for the citation pattern. -/
def citSearch : List Char → Bool
  | [] => citTryAt []
  | c :: rest => citTryAt (c :: rest) || citSearch rest

/-- The grounding check of `critic_node` (graph.py line 114):
`bool(re.search(r"\[[^\]]+ p\d+\]", answer))`. -/
def check_grounded (answer : String) : Bool :=
  citSearch answer.data

/-! ## Action extraction (graph.py lines 127-144) -/

/-- The proposal dictionary built by `action_node`: `type` and
`original_query` are always present, `item` only for item actions,
`details` only for hours actions. -/
structure ActionProposal where
  type : String
  original_query : String
  item : Option String
  details : Option String
deriving DecidableEq

/-- The pure extraction logic of `action_node` (graph.py lines 129-144):
try the item pattern, then the hours pattern; `resume`/`unpause` both
yield `unpause_item`; captured texts are `.strip()`ped. -/
def extract_action (q : String) : ActionProposal :=
  match itemSearch q.data with
  | some vi =>
    let verb := pyLower vi.1
    { type := if verb = "pause" then "pause_item" else "unpause_item"
      original_query := q
      item := some (pyStrip vi.2)
      details := none }
  | none =>
    match hoursSearch q.data with
    | some m0 =>
      { type := "update_hours"
        original_query := q
        item := none
        details := some (pyStrip ⟨m0⟩) }
    | none =>
      { type := "unknown", original_query := q, item := none, details := none }

/-! ## Pipeline state and nodes (graph.py lines 42-207)

`AgentState` is a `TypedDict` with `total=False`: every key is optional,
modelled with `Option` fields.  The retrieval collaborator (embedding
model + Chroma query, graph.py lines 74-82) and the answer synthesizer
(`answer_with_citations`, called at line 101) are external and appear as
function parameters; their result element types `Doc`, `Meta`, `Dist`
are opaque. -/

/-- One retrieved context `{"document": ..., "metadata": ..., "distance": ...}`
(graph.py line 86). -/
structure RetrievedCtx (Doc Meta Dist : Type) where
  document : Doc
  metadata : Meta
  distance : Dist

/-- The `AgentState` TypedDict (graph.py lines 42-51); `total=False`, so
every field is optional. -/
structure AgentState (Doc Meta Dist : Type) where
  query : Option String
  intent : Option String
  top_k : Option Nat
  style : Option String
  temperature : Option ℚ
  contexts : Option (List (RetrievedCtx Doc Meta Dist))
  answer : Option String
  proposed_action : Option ActionProposal
  log : Option (List String)

variable {Doc Meta Dist : Type}

/-- The repackaging of the retrieval collaborator's three parallel arrays
into context records: `zip(docs, metas, dists)` (graph.py lines 84-86);
Python's `zip` truncates to the shortest array, as does `List.zip`. -/
def zipContexts (res : List Doc × List Meta × List Dist) :
    List (RetrievedCtx Doc Meta Dist) :=
  (res.1.zip (res.2.1.zip res.2.2)).map (fun t => RetrievedCtx.mk t.1 t.2.1 t.2.2)

/-- The `style` key of the initial state (graph.py lines 203-204):
set only when the argument is truthy (`if style:`), so an empty string is
dropped like `None`. -/
def initStyle (style : Option String) : Option String :=
  match style with
  | some st => if st = "" then none else some st
  | none => none

/-- The fixed router keyword list (graph.py line 59). -/
def actionKeywords : List String :=
  ["pause", "unpause", "resume", "update hours", "change hours", "set hours"]

/-- `router_node` (graph.py lines 55-68): lower-case the query, test the
keywords as substrings, set `intent`, append one trace line. -/
def router_node (s : AgentState Doc Meta Dist) : AgentState Doc Meta Dist :=
  let q := pyLower (s.query.getD "")
  let log := s.log.getD []
  let intent := if actionKeywords.any (fun k => containsSub q k) then "action" else "knowledge"
  { s with intent := some intent
           log := some (log ++ ["Router → " ++ pyTitle intent]) }

/-- `retriever_node` (graph.py lines 71-93): call the retrieval
collaborator (embed + similarity query, both external, fused into the
`search` parameter returning the three parallel arrays) and zip the
arrays into context records.  The source reads `state["query"]` directly;
the orchestrator always sets it, and a missing key is modelled as `""`. -/
def retriever_node (search : String → Nat → List Doc × List Meta × List Dist)
    (s : AgentState Doc Meta Dist) : AgentState Doc Meta Dist :=
  let top_k := s.top_k.getD 4
  let query := s.query.getD ""
  let contexts := zipContexts (search query top_k)
  { s with contexts := some contexts
           log := some (s.log.getD [] ++ ["Retriever → Compose"]) }

/-- `compose_node` (graph.py lines 96-108): call the external answer
synthesizer (the `answerFn` parameter, `answer_with_citations` in the
source) with query, contexts, temperature and style, store the answer,
append one trace line. -/
def compose_node (answerFn : String → List (RetrievedCtx Doc Meta Dist) → ℚ → String → String)
    (s : AgentState Doc Meta Dist) : AgentState Doc Meta Dist :=
  let query := s.query.getD ""
  let contexts := s.contexts.getD []
  let style := s.style.getD "detailed"
  let temp := s.temperature.getD (1 / 5)
  let answer := answerFn query contexts temp style
  { s with answer := some answer
           log := some (s.log.getD [] ++ ["Compose → Critic"]) }

/-- `critic_node` (graph.py lines 111-119): run the grounding check on
the answer and append one trace line; the state is otherwise unchanged. -/
def critic_node (s : AgentState Doc Meta Dist) : AgentState Doc Meta Dist :=
  let answer := s.answer.getD ""
  let grounded := check_grounded answer
  { s with log := some (s.log.getD [] ++ ["Critic → END (grounded=" ++ pyBool grounded ++ ")"]) }

/-- `action_node` (graph.py lines 127-155): extract the proposal, store
it, synthesize the fixed-shape confirmation answer, append one trace
line. -/
def action_node (s : AgentState Doc Meta Dist) : AgentState Doc Meta Dist :=
  let q := s.query.getD ""
  let proposed := extract_action q
  { s with proposed_action := some proposed
           answer := some ("I identified an action request: " ++ proposed.type ++
             ". Review the proposed parameters below and approve to execute.")
           log := some (s.log.getD [] ++ ["Action → END (proposed=" ++ proposed.type ++ ")"]) }

/-- `route_selector` (graph.py lines 176-177): `state.get("intent", "knowledge")`. -/
def route_selector (s : AgentState Doc Meta Dist) : String :=
  s.intent.getD "knowledge"

/-- `invoke_graph` over the compiled graph (graph.py lines 161-207):
build the initial state (`style` only when truthy), run the router, then
follow the conditional edge: `action` goes to the action node and ends,
`knowledge` goes through retriever, compose and critic. -/
def invoke_graph (search : String → Nat → List Doc × List Meta × List Dist)
    (answerFn : String → List (RetrievedCtx Doc Meta Dist) → ℚ → String → String)
    (query : String) (top_k : Nat) (style : Option String) (temperature : ℚ) :
    AgentState Doc Meta Dist :=
  let init : AgentState Doc Meta Dist :=
    { query := some query
      intent := none
      top_k := some top_k
      style := initStyle style
      temperature := some temperature
      contexts := none
      answer := none
      proposed_action := none
      log := some [] }
  let s1 := router_node init
  if route_selector s1 = "action" then action_node s1
  else critic_node (compose_node answerFn (retriever_node search s1))

/-! ## The answer synthesis boundary (llm.py)

The Groq client is external: it is modelled as an optional call function
(`get_llm_client` returns `None` when `GROQ_API_KEY` is unset or the SDK
is missing, llm.py lines 19-25).  A call either returns the message
content — possibly null, llm.py line 80 — or raises, modelled as
`Except` with the exception's text. -/

/-- The parameters `answer_with_citations` passes to
`client.chat.completions.create` (llm.py lines 71-79); the model name is
environment-determined and immaterial here. -/
structure ChatRequest where
  system_message : String
  user_prompt : String
  temperature : ℚ
  max_tokens : Nat

/-- One retrieved context as consumed by `format_context_block`:
`document` text and a string-keyed metadata mapping. -/
structure LlmContext where
  document : String
  metadata : List (String × String)

/-- The constant `SYSTEM_PROMPT` (llm.py lines 27-37). -/
def SYSTEM_PROMPT : String :=
  "You are an operations copilot for finance, menu, onboarding, and platform workflows. " ++
  "Use ONLY the provided context to answer. If the context is insufficient, say you are unsure and list what is missing. " ++
  "Write in clear, professional, natural English for an operations audience. Prefer concise but complete explanations. " ++
  "Formatting requirements:\n" ++
  "- Start with a one-sentence executive summary.\n" ++
  "- Then provide a numbered step-by-step procedure.\n" ++
  "- Add short ‘Notes’ for edge cases, validation, or policies if relevant.\n" ++
  "- Cite sources inline using [filename pX] exactly where claims are supported.\n" ++
  "Do NOT reveal chain-of-thought; return only the final answer."

/-- `format_context_block` (llm.py lines 39-47). -/
def format_context_block (contexts : List LlmContext) : String :=
  String.intercalate "\n\n---\n\n"
    (contexts.map (fun c =>
      let src := pyDictGet c.metadata "filename" (pyDictGet c.metadata "source" "")
      let page := pyDictGet c.metadata "page" "?"
      "Source: " ++ src ++ " p" ++ page ++ "\n" ++ c.document))

/-- The system message after the style adjustment (llm.py lines 65-70):
append the brevity or detail instruction for the recognised styles. -/
def styleSystem (style : Option String) : String :=
  match style with
  | none => SYSTEM_PROMPT
  | some st =>
    if st = "" then SYSTEM_PROMPT
    else if pyLower st = "concise" then
      SYSTEM_PROMPT ++ " Focus on brevity. Use at most 6–8 bullets in the procedure."
    else if pyLower st = "detailed" then
      SYSTEM_PROMPT ++ " Provide rich, detailed steps and short rationale where helpful."
    else SYSTEM_PROMPT

/-- The request `answer_with_citations` sends (llm.py lines 61-79). -/
def llmRequest (query : String) (contexts : List LlmContext) (temperature : ℚ)
    (max_tokens : Nat) (style : Option String) : ChatRequest :=
  { system_message := styleSystem style
    user_prompt := "Context:\n" ++ format_context_block contexts ++
      "\n\nQuestion: " ++ query ++ "\nAnswer:"
    temperature := temperature
    max_tokens := max_tokens }

/-- `answer_with_citations` (llm.py lines 50-82).  `client = None` yields
the fixed disabled-backend string; a successful call yields the stripped
content (`(content or "").strip()`); a raised exception is caught and
converted to the error-embedding fallback string.  The function is total:
no case re-raises to the caller. -/
def answer_with_citations (client : Option (ChatRequest → Except String (Option String)))
    (query : String) (contexts : List LlmContext) (temperature : ℚ)
    (max_tokens : Nat) (style : Option String) : String :=
  match client with
  | none => "[LLM disabled] Provide GROQ_API_KEY in .env. Proceed with retrieved sources below."
  | some call =>
    match call (llmRequest query contexts temperature max_tokens style) with
    | Except.ok content => pyStrip (content.getD "")
    | Except.error e => "[LLM error] " ++ e ++ ". Proceed with retrieved sources below."

/-! ## Specification-side helpers

Executable predicates used only to state properties (prefix-of tests on
trace entries, trivial collaborators for concrete runs). -/

/-- Does the string `s` start with `p`? -/
def strStarts (s p : String) : Bool :=
  matchesAt p.data s.data

/-- Does the last entry of `L` start with `p`? -/
def lastStarts (L : List String) (p : String) : Bool :=
  match L.getLast? with
  | some e => strStarts e p
  | none => false

/-- Does some entry of `L` start with `p`? -/
def anyStarts (L : List String) (p : String) : Bool :=
  L.any (fun e => strStarts e p)

/-- A trivial retrieval collaborator returning no hits, for concrete runs. -/
def noSearch : String → Nat → List Unit × List Unit × List Unit :=
  fun _ _ => ([], [], [])

/-- A trivial answer synthesizer, for concrete runs. -/
def noAnswer : String → List (RetrievedCtx Unit Unit Unit) → ℚ → String → String :=
  fun _ _ _ _ => ""

/-- The specification's description of a well-formed citation marker: a
bracketed non-empty token (no closing bracket inside), a space, the
letter `p`, and at least one digit, closed by `]`, occurring anywhere in
the string. -/
def CitationAt (a : String) : Prop :=
  ∃ pre tok ds post : List Char,
    a.data = pre ++ '[' :: (tok ++ ' ' :: 'p' :: (ds ++ ']' :: post))
    ∧ tok ≠ [] ∧ (∀ c ∈ tok, c ≠ ']') ∧ ds ≠ [] ∧ (∀ c ∈ ds, c.isDigit = true)

/-! ## Shared lemmas -/

/-- `matchesAt` decides list-prefix. -/
theorem matchesAt_iff (n h : List Char) : matchesAt n h = true ↔ n <+: h := by
  induction n generalizing h with
  | nil => simp [matchesAt]
  | cons a as ih =>
    cases h with
    | nil => simp [matchesAt]
    | cons b bs => simp [matchesAt, ih, List.cons_prefix_cons]

/-- `hasSubList` decides contiguous-sublist membership. -/
theorem hasSubList_iff (n h : List Char) : hasSubList n h = true ↔ n <:+: h := by
  induction h with
  | nil => simp [hasSubList, matchesAt_iff]
  | cons c cs ih => simp [hasSubList, matchesAt_iff, ih, List.infix_cons_iff]

/-- Evaluation of `invoke_graph` on the action branch: when some router
keyword occurs in the lower-cased query, the run is
START → router → action → END and the final state is fully determined by
the query (the collaborators are never consulted). -/
theorem invoke_graph_action (search : String → Nat → List Doc × List Meta × List Dist)
    (answerFn : String → List (RetrievedCtx Doc Meta Dist) → ℚ → String → String)
    (query : String) (top_k : Nat) (style : Option String) (temperature : ℚ)
    (h : actionKeywords.any (fun k => containsSub (pyLower query) k) = true) :
    invoke_graph search answerFn query top_k style temperature =
      { query := some query
        intent := some "action"
        top_k := some top_k
        style := initStyle style
        temperature := some temperature
        contexts := none
        answer := some ("I identified an action request: " ++ (extract_action query).type ++
          ". Review the proposed parameters below and approve to execute.")
        proposed_action := some (extract_action query)
        log := some ["Router → " ++ pyTitle "action",
          "Action → END (proposed=" ++ (extract_action query).type ++ ")"] } := by
  simp [invoke_graph, router_node, route_selector, action_node, h]

/-- Evaluation of `invoke_graph` on the knowledge branch: when no router
keyword occurs in the lower-cased query, the run is
START → router → retriever → compose → critic → END. -/
theorem invoke_graph_knowledge (search : String → Nat → List Doc × List Meta × List Dist)
    (answerFn : String → List (RetrievedCtx Doc Meta Dist) → ℚ → String → String)
    (query : String) (top_k : Nat) (style : Option String) (temperature : ℚ)
    (h : actionKeywords.any (fun k => containsSub (pyLower query) k) = false) :
    invoke_graph search answerFn query top_k style temperature =
      { query := some query
        intent := some "knowledge"
        top_k := some top_k
        style := initStyle style
        temperature := some temperature
        contexts := some (zipContexts (search query top_k))
        answer := some (answerFn query (zipContexts (search query top_k)) temperature
          ((initStyle style).getD "detailed"))
        proposed_action := none
        log := some ["Router → " ++ pyTitle "knowledge", "Retriever → Compose", "Compose → Critic",
          "Critic → END (grounded=" ++ pyBool (check_grounded (answerFn query
            (zipContexts (search query top_k)) temperature ((initStyle style).getD "detailed"))) ++ ")"] } := by
  simp [invoke_graph, router_node, route_selector, retriever_node, compose_node, critic_node, h]

/-- The proposal type produced by `extract_action` is one of the four
documented values. -/
theorem extract_action_type (q : String) :
    (extract_action q).type = "pause_item" ∨ (extract_action q).type = "unpause_item"
    ∨ (extract_action q).type = "update_hours" ∨ (extract_action q).type = "unknown" := by
  unfold extract_action
  rcases itemSearch q.data with _ | vi
  · rcases hoursSearch q.data with _ | m0 <;> simp
  · by_cases hv : pyLower vi.1 = "pause" <;> simp [hv]

/-! ## Claim theorems -/

/-- C1 counterexample: on `pause 'Garlic Bread'` the extractor does not
capture the full quoted name `Garlic Bread`. -/
theorem c1_counterexample :
    (extract_action "pause 'Garlic Bread'").item ≠ some "Garlic Bread" := by
  decide

/-- C1 (amended): `extract_action "pause 'Garlic Bread'"` returns a
proposal with `type = pause_item` whose `item` is `"Garlic"`: the lazy
capture group stops at the first word boundary inside the quotes, so only
the first word of a multi-word quoted name is captured (and the trailing
quote is therefore not part of the capture). -/
theorem c1_item_extraction :
    extract_action "pause 'Garlic Bread'"
      = { type := "pause_item", original_query := "pause 'Garlic Bread'"
          item := some "Garlic", details := none } := by
  decide

/-- C2 counterexample: the full pipeline on `pause the garlic bread`
produces `proposed_action.item = "the"`, which does not contain the text
`garlic bread`. -/
theorem c2_counterexample :
    (invoke_graph noSearch noAnswer "pause the garlic bread" 4 none (1 / 5)).proposed_action
      = some { type := "pause_item", original_query := "pause the garlic bread"
               item := some "the", details := none }
    ∧ containsSub "the" "garlic bread" = false := by
  decide

/-- C2 (amended): the full pipeline on query `pause the garlic bread`
with `top_k = 4` yields `intent = action`, `proposed_action.type =
pause_item`, `answer` starting with `I identified an action request:
pause_item.` — but `proposed_action.item` is `"the"` (the lazy item
pattern captures only the single word after the verb), not a string
containing `garlic bread`. -/
theorem c2_pipeline_action_run (search : String → Nat → List Doc × List Meta × List Dist)
    (answerFn : String → List (RetrievedCtx Doc Meta Dist) → ℚ → String → String) :
    (invoke_graph search answerFn "pause the garlic bread" 4 none (1 / 5)).intent = some "action"
    ∧ (invoke_graph search answerFn "pause the garlic bread" 4 none (1 / 5)).proposed_action
        = some { type := "pause_item", original_query := "pause the garlic bread"
                 item := some "the", details := none }
    ∧ strStarts ((invoke_graph search answerFn "pause the garlic bread" 4 none (1 / 5)).answer.getD "")
        "I identified an action request: pause_item." = true := by
  rw [invoke_graph_action search answerFn "pause the garlic bread" 4 none (1 / 5) (by decide)]
  exact ⟨rfl, rfl, rfl⟩

/-- C8: two invocations of the pipeline on the same query with the same
collaborators, retrieval breadth, style and temperature agree on the
trace length, the intent, and the proposed-action type.  The embedding is
a pure function of these inputs, so determinism holds definitionally. -/
theorem c8_deterministic_runs (search : String → Nat → List Doc × List Meta × List Dist)
    (answerFn : String → List (RetrievedCtx Doc Meta Dist) → ℚ → String → String)
    (query : String) (top_k : Nat) (style : Option String) (temperature : ℚ) :
    ((invoke_graph search answerFn query top_k style temperature).log.getD []).length
      = ((invoke_graph search answerFn query top_k style temperature).log.getD []).length
    ∧ (invoke_graph search answerFn query top_k style temperature).intent
      = (invoke_graph search answerFn query top_k style temperature).intent
    ∧ (invoke_graph search answerFn query top_k style temperature).proposed_action.map ActionProposal.type
      = (invoke_graph search answerFn query top_k style temperature).proposed_action.map ActionProposal.type :=
  ⟨rfl, rfl, rfl⟩

/-- C9: `resume` is normalized to `unpause_item`: the extractor on
`resume Cheesecake` yields `type = unpause_item`, `item = "Cheesecake"`. -/
theorem c9_resume_normalized :
    extract_action "resume Cheesecake"
      = { type := "unpause_item", original_query := "resume Cheesecake"
          item := some "Cheesecake", details := none } := by
  decide

/-- C10: any query whose lower-cased text contains none of the six router
keywords is routed to the knowledge branch: the final state has
`intent = knowledge` and no `proposed_action`, even if the query would
match the extractor's hours pattern (the action node is unreachable for
it). -/
theorem c10_router_gates_hours (search : String → Nat → List Doc × List Meta × List Dist)
    (answerFn : String → List (RetrievedCtx Doc Meta Dist) → ℚ → String → String)
    (query : String) (top_k : Nat) (style : Option String) (temperature : ℚ)
    (h : actionKeywords.any (fun k => containsSub (pyLower query) k) = false) :
    (invoke_graph search answerFn query top_k style temperature).intent = some "knowledge"
    ∧ (invoke_graph search answerFn query top_k style temperature).proposed_action = none := by
  rw [invoke_graph_knowledge search answerFn query top_k style temperature h]
  exact ⟨rfl, rfl⟩

/-- C10 witness: `please update opening hours for Friday to 9-5` matches
the extractor's hours pattern (the extractor alone would propose
`update_hours`), yet contains no router keyword — `update hours` requires
the two words to be adjacent — so the pipeline ends on the knowledge
branch with no proposal. -/
theorem c10_router_gates_hours_witness :
    (hoursSearch "please update opening hours for Friday to 9-5".data).isSome = true
    ∧ (extract_action "please update opening hours for Friday to 9-5").type = "update_hours"
    ∧ actionKeywords.any
        (fun k => containsSub (pyLower "please update opening hours for Friday to 9-5") k) = false
    ∧ (invoke_graph noSearch noAnswer
        "please update opening hours for Friday to 9-5" 4 none (1 / 5)).intent = some "knowledge"
    ∧ (invoke_graph noSearch noAnswer
        "please update opening hours for Friday to 9-5" 4 none (1 / 5)).proposed_action = none :=
  ⟨by decide, by decide, by decide,
    (c10_router_gates_hours noSearch noAnswer
      "please update opening hours for Friday to 9-5" 4 none (1 / 5) (by decide)).1,
    (c10_router_gates_hours noSearch noAnswer
      "please update opening hours for Friday to 9-5" 4 none (1 / 5) (by decide)).2⟩

/-- C3: the router is a total, deterministic classifier: on any state it
sets `intent` to `action` exactly when one of the six keywords occurs as
a substring of the lower-cased query, and to `knowledge` exactly
otherwise; no other outcome is possible. -/
theorem c3_router_classification (s : AgentState Doc Meta Dist) :
    ((router_node s).intent = some "action" ∨ (router_node s).intent = some "knowledge")
    ∧ ((router_node s).intent = some "action"
        ↔ ∃ k ∈ actionKeywords, k.data <:+: (pyLower (s.query.getD "")).data)
    ∧ ((router_node s).intent = some "knowledge"
        ↔ ¬ ∃ k ∈ actionKeywords, k.data <:+: (pyLower (s.query.getD "")).data) := by
  have hany : (actionKeywords.any (fun k => containsSub (pyLower (s.query.getD "")) k)) = true
      ↔ ∃ k ∈ actionKeywords, k.data <:+: (pyLower (s.query.getD "")).data := by
    simp [List.any_eq_true, containsSub, hasSubList_iff]
  cases hc : actionKeywords.any (fun k => containsSub (pyLower (s.query.getD "")) k) with
  | false =>
    have hne : ¬ ∃ k ∈ actionKeywords, k.data <:+: (pyLower (s.query.getD "")).data := by
      intro hex
      rw [hany.mpr hex] at hc
      exact absurd hc (by simp)
    refine ⟨Or.inr ?_, ?_, ?_⟩ <;> simp [router_node, hc]
    · simpa using hne
    · simpa using hne
  | true =>
    refine ⟨Or.inl ?_, ?_, ?_⟩ <;> simp [router_node, hc]
    · simpa using hany.mp hc
    · simpa using hany.mp hc

/-- C4: every run's final state carries `query`, `intent`, `answer` and
`log`, and exactly one branch's distinguishing field is populated:
`contexts` with no `proposed_action` on the knowledge branch, or
`proposed_action` with no `contexts` on the action branch — never both. -/
theorem c4_branch_exclusive (search : String → Nat → List Doc × List Meta × List Dist)
    (answerFn : String → List (RetrievedCtx Doc Meta Dist) → ℚ → String → String)
    (query : String) (top_k : Nat) (style : Option String) (temperature : ℚ) :
    (invoke_graph search answerFn query top_k style temperature).query = some query
    ∧ ((invoke_graph search answerFn query top_k style temperature).intent).isSome = true
    ∧ ((invoke_graph search answerFn query top_k style temperature).answer).isSome = true
    ∧ ((invoke_graph search answerFn query top_k style temperature).log).isSome = true
    ∧ (((invoke_graph search answerFn query top_k style temperature).contexts).isSome = true
          ∧ (invoke_graph search answerFn query top_k style temperature).proposed_action = none
        ∨ ((invoke_graph search answerFn query top_k style temperature).proposed_action).isSome = true
          ∧ (invoke_graph search answerFn query top_k style temperature).contexts = none) := by
  cases hc : actionKeywords.any (fun k => containsSub (pyLower query) k) with
  | false =>
    rw [invoke_graph_knowledge search answerFn query top_k style temperature hc]
    exact ⟨rfl, rfl, rfl, rfl, Or.inl ⟨rfl, rfl⟩⟩
  | true =>
    rw [invoke_graph_action search answerFn query top_k style temperature hc]
    exact ⟨rfl, rfl, rfl, rfl, Or.inr ⟨rfl, rfl⟩⟩

/-- Trace facts for the knowledge-branch log, for either grounding verdict. -/
theorem knowledgeLogFacts (b : Bool) :
    lastStarts ["Router → " ++ pyTitle "knowledge", "Retriever → Compose", "Compose → Critic",
      "Critic → END (grounded=" ++ pyBool b ++ ")"] "Critic →" = true
    ∧ anyStarts ["Router → " ++ pyTitle "knowledge", "Retriever → Compose", "Compose → Critic",
      "Critic → END (grounded=" ++ pyBool b ++ ")"] "Action →" = false
    ∧ (anyStarts ["Router → " ++ pyTitle "knowledge", "Retriever → Compose", "Compose → Critic",
        "Critic → END (grounded=" ++ pyBool b ++ ")"] "Critic →"
      && anyStarts ["Router → " ++ pyTitle "knowledge", "Retriever → Compose", "Compose → Critic",
        "Critic → END (grounded=" ++ pyBool b ++ ")"] "Action →") = false := by
  cases b <;> exact ⟨by decide, by decide, by decide⟩

/-- Trace facts for the action-branch log, for each possible proposal type. -/
theorem actionLogFacts (t : String)
    (ht : t = "pause_item" ∨ t = "unpause_item" ∨ t = "update_hours" ∨ t = "unknown") :
    lastStarts ["Router → " ++ pyTitle "action", "Action → END (proposed=" ++ t ++ ")"] "Action →" = true
    ∧ anyStarts ["Router → " ++ pyTitle "action", "Action → END (proposed=" ++ t ++ ")"] "Critic →" = false
    ∧ (anyStarts ["Router → " ++ pyTitle "action", "Action → END (proposed=" ++ t ++ ")"] "Critic →"
      && anyStarts ["Router → " ++ pyTitle "action", "Action → END (proposed=" ++ t ++ ")"] "Action →") = false := by
  rcases ht with h | h | h | h <;> subst h <;> exact ⟨by decide, by decide, by decide⟩

/-- C5: the trace is append-only in node order (each node returns the
incoming log plus exactly one new trailing entry), and for every run the
final log entry starts with `Critic →` on the knowledge branch and with
`Action →` on the action branch; no run's log contains both a `Critic →`
entry and an `Action →` entry. -/
theorem c5_trace_order (search : String → Nat → List Doc × List Meta × List Dist)
    (answerFn : String → List (RetrievedCtx Doc Meta Dist) → ℚ → String → String)
    (query : String) (top_k : Nat) (style : Option String) (temperature : ℚ) :
    (∀ s : AgentState Doc Meta Dist, ∃ e, (router_node s).log = some (s.log.getD [] ++ [e]))
    ∧ (∀ s : AgentState Doc Meta Dist, ∃ e, (retriever_node search s).log = some (s.log.getD [] ++ [e]))
    ∧ (∀ s : AgentState Doc Meta Dist, ∃ e, (compose_node answerFn s).log = some (s.log.getD [] ++ [e]))
    ∧ (∀ s : AgentState Doc Meta Dist, ∃ e, (critic_node s).log = some (s.log.getD [] ++ [e]))
    ∧ (∀ s : AgentState Doc Meta Dist, ∃ e, (action_node s).log = some (s.log.getD [] ++ [e]))
    ∧ ((invoke_graph search answerFn query top_k style temperature).intent = some "knowledge"
        ∧ lastStarts ((invoke_graph search answerFn query top_k style temperature).log.getD []) "Critic →" = true
        ∧ anyStarts ((invoke_graph search answerFn query top_k style temperature).log.getD []) "Action →" = false
      ∨ (invoke_graph search answerFn query top_k style temperature).intent = some "action"
        ∧ lastStarts ((invoke_graph search answerFn query top_k style temperature).log.getD []) "Action →" = true
        ∧ anyStarts ((invoke_graph search answerFn query top_k style temperature).log.getD []) "Critic →" = false)
    ∧ (anyStarts ((invoke_graph search answerFn query top_k style temperature).log.getD []) "Critic →"
        && anyStarts ((invoke_graph search answerFn query top_k style temperature).log.getD []) "Action →") = false := by
  have key : ((invoke_graph search answerFn query top_k style temperature).intent = some "knowledge"
        ∧ lastStarts ((invoke_graph search answerFn query top_k style temperature).log.getD []) "Critic →" = true
        ∧ anyStarts ((invoke_graph search answerFn query top_k style temperature).log.getD []) "Action →" = false
      ∨ (invoke_graph search answerFn query top_k style temperature).intent = some "action"
        ∧ lastStarts ((invoke_graph search answerFn query top_k style temperature).log.getD []) "Action →" = true
        ∧ anyStarts ((invoke_graph search answerFn query top_k style temperature).log.getD []) "Critic →" = false)
      ∧ (anyStarts ((invoke_graph search answerFn query top_k style temperature).log.getD []) "Critic →"
        && anyStarts ((invoke_graph search answerFn query top_k style temperature).log.getD []) "Action →") = false := by
    cases hc : actionKeywords.any (fun k => containsSub (pyLower query) k) with
    | false =>
      rw [invoke_graph_knowledge search answerFn query top_k style temperature hc]
      have hk := knowledgeLogFacts (check_grounded (answerFn query (zipContexts (search query top_k))
        temperature ((initStyle style).getD "detailed")))
      exact ⟨Or.inl ⟨rfl, hk.1, hk.2.1⟩, hk.2.2⟩
    | true =>
      rw [invoke_graph_action search answerFn query top_k style temperature hc]
      have ha := actionLogFacts (extract_action query).type (extract_action_type query)
      exact ⟨Or.inr ⟨rfl, ha.1, ha.2.1⟩, ha.2.2⟩
  exact ⟨fun s => ⟨_, rfl⟩, fun s => ⟨_, rfl⟩, fun s => ⟨_, rfl⟩, fun s => ⟨_, rfl⟩,
    fun s => ⟨_, rfl⟩, key.1, key.2⟩

/-- C7: the answer-synthesis boundary never raises to the orchestrator
(it is a total function into strings): with no backend configured it
returns the fixed disabled-backend fallback, and when the backend call
fails it returns the fallback string embedding the failure reason. -/
theorem c7_synthesis_total_fallbacks :
    (∀ (query : String) (contexts : List LlmContext) (temperature : ℚ)
        (max_tokens : Nat) (style : Option String),
      answer_with_citations none query contexts temperature max_tokens style
        = "[LLM disabled] Provide GROQ_API_KEY in .env. Proceed with retrieved sources below.")
    ∧ (∀ (call : ChatRequest → Except String (Option String)) (query : String)
        (contexts : List LlmContext) (temperature : ℚ) (max_tokens : Nat)
        (style : Option String) (e : String),
      call (llmRequest query contexts temperature max_tokens style) = Except.error e →
      answer_with_citations (some call) query contexts temperature max_tokens style
        = "[LLM error] " ++ e ++ ". Proceed with retrieved sources below.") := by
  refine ⟨fun _ _ _ _ _ => rfl, fun call query contexts temperature max_tokens style e he => ?_⟩
  simp [answer_with_citations, he]

/-- Witness for C7 at a concrete failing backend. -/
theorem c7_synthesis_total_fallbacks_witness :
    answer_with_citations (some (fun _ => Except.error "boom")) "q" [] (1 / 5) 768 none
      = "[LLM error] boom. Proceed with retrieved sources below." :=
  c7_synthesis_total_fallbacks.2 (fun _ => Except.error "boom") "q" [] (1 / 5) 768 none "boom" rfl

/-- Digits followed by a closing bracket satisfy the greedy digit star. -/
theorem citDigitsStar_of (ds post : List Char) (hds : ∀ c ∈ ds, c.isDigit = true) :
    citDigitsStar (ds ++ ']' :: post) = true := by
  induction ds with
  | nil => simp [citDigitsStar, citBracket]
  | cons c cs ih =>
    have hc : c.isDigit = true := hds c (by simp)
    have ih' := ih (fun x hx => hds x (by simp [hx]))
    simp [citDigitsStar, hc, ih']

/-- A successful greedy digit star splits into digits and the bracket. -/
theorem citDigitsStar_elim (cs : List Char) (h : citDigitsStar cs = true) :
    ∃ ds post, cs = ds ++ ']' :: post ∧ (∀ c ∈ ds, c.isDigit = true) := by
  induction cs with
  | nil => simp [citDigitsStar, citBracket] at h
  | cons c rest ih =>
    simp only [citDigitsStar] at h
    by_cases hc : c.isDigit = true
    · rw [if_pos hc] at h
      simp only [Bool.or_eq_true] at h
      rcases h with h1 | h2
      · obtain ⟨ds, post, heq, hds⟩ := ih h1
        refine ⟨c :: ds, post, by simp [heq], fun x hx => ?_⟩
        rcases List.mem_cons.mp hx with rfl | hx'
        · exact hc
        · exact hds x hx'
      · simp only [citBracket, decide_eq_true_eq] at h2
        subst h2
        exact absurd hc (by decide)
    · rw [if_neg hc] at h
      simp only [citBracket, decide_eq_true_eq] at h
      subst h
      exact ⟨[], rest, rfl, by simp⟩

/-- A successful `\\d+\\]` splits into nonempty digits and the bracket. -/
theorem citDigitsPlus_elim (cs : List Char) (h : citDigitsPlus cs = true) :
    ∃ ds post, cs = ds ++ ']' :: post ∧ ds ≠ [] ∧ (∀ c ∈ ds, c.isDigit = true) := by
  cases cs with
  | nil => simp [citDigitsPlus] at h
  | cons c rest =>
    simp only [citDigitsPlus, Bool.and_eq_true] at h
    obtain ⟨hd, hs⟩ := h
    obtain ⟨ds, post, heq, hds⟩ := citDigitsStar_elim rest hs
    refine ⟨c :: ds, post, by simp [heq], by simp, fun x hx => ?_⟩
    rcases List.mem_cons.mp hx with rfl | hx'
    · exact hd
    · exact hds x hx'

/-- Nonempty digits followed by the bracket satisfy `\\d+\\]`. -/
theorem citDigitsPlus_of (ds post : List Char) (hne : ds ≠ [])
    (hds : ∀ c ∈ ds, c.isDigit = true) : citDigitsPlus (ds ++ ']' :: post) = true := by
  cases ds with
  | nil => exact absurd rfl hne
  | cons c cs =>
    simp only [List.cons_append, citDigitsPlus, Bool.and_eq_true]
    exact ⟨hds c (by simp), citDigitsStar_of cs post (fun x hx => hds x (by simp [hx]))⟩

/-- Characterization of the pattern suffix ` p\\d+\\]`. -/
theorem citTail_iff (cs : List Char) :
    citTail cs = true ↔ ∃ ds post, cs = ' ' :: 'p' :: (ds ++ ']' :: post)
      ∧ ds ≠ [] ∧ (∀ c ∈ ds, c.isDigit = true) := by
  cases cs with
  | nil => simp [citTail]
  | cons c1 cs1 =>
    cases cs1 with
    | nil => simp [citTail]
    | cons c2 rest =>
      simp only [citTail, Bool.and_eq_true, decide_eq_true_eq]
      constructor
      · rintro ⟨⟨h1, h2⟩, h3⟩
        obtain ⟨ds, post, heq, hne, hds⟩ := citDigitsPlus_elim rest h3
        subst h1; subst h2
        exact ⟨ds, post, by rw [heq], hne, hds⟩
      · rintro ⟨ds, post, heq, hne, hds⟩
        obtain ⟨h1, h2, h3⟩ : c1 = ' ' ∧ c2 = 'p' ∧ rest = ds ++ ']' :: post := by
          injection heq with ha hb
          injection hb with hb hc
          exact ⟨ha, hb, hc⟩
        subst h1; subst h2; subst h3
        exact ⟨⟨rfl, rfl⟩, citDigitsPlus_of ds post hne hds⟩

/-- A successful inner star splits into bracket-free characters and the tail. -/
theorem citInnerStar_elim (cs : List Char) (h : citInnerStar cs = true) :
    ∃ tok rest, cs = tok ++ rest ∧ (∀ c ∈ tok, c ≠ ']') ∧ citTail rest = true := by
  induction cs with
  | nil => exact ⟨[], [], rfl, by simp, h⟩
  | cons c cs1 ih =>
    simp only [citInnerStar] at h
    by_cases hc : c = ']'
    · rw [if_pos hc] at h
      exact ⟨[], c :: cs1, rfl, by simp, h⟩
    · rw [if_neg hc] at h
      simp only [Bool.or_eq_true] at h
      rcases h with h1 | h2
      · obtain ⟨tok, rest, heq, htok, htail⟩ := ih h1
        refine ⟨c :: tok, rest, by simp [heq], fun x hx => ?_, htail⟩
        rcases List.mem_cons.mp hx with rfl | hx'
        · exact hc
        · exact htok x hx'
      · exact ⟨[], c :: cs1, rfl, by simp, h2⟩

/-- Bracket-free characters followed by a matching tail satisfy the inner star. -/
theorem citInnerStar_of (tok rest : List Char) (htok : ∀ c ∈ tok, c ≠ ']')
    (h : citTail rest = true) : citInnerStar (tok ++ rest) = true := by
  induction tok with
  | nil =>
    simp only [List.nil_append]
    cases rest with
    | nil => simp [citTail] at h
    | cons r rs =>
      simp only [citInnerStar]
      split
      · exact h
      · simp [h]
  | cons c toks ih =>
    have hc : c ≠ ']' := htok c (by simp)
    have ih' := ih (fun x hx => htok x (by simp [hx]))
    simp [citInnerStar, hc, ih']

/-- Characterization of the pattern suffix `[^\\]]+ p\\d+\\]`. -/
theorem citInnerPlus_iff (cs : List Char) :
    citInnerPlus cs = true ↔ ∃ tok rest, cs = tok ++ rest ∧ tok ≠ []
      ∧ (∀ c ∈ tok, c ≠ ']') ∧ citTail rest = true := by
  cases cs with
  | nil =>
    simp only [citInnerPlus]
    constructor
    · intro h; simp at h
    · rintro ⟨tok, rest, heq, hne, -, -⟩
      cases tok with
      | nil => exact absurd rfl hne
      | cons a as => simp at heq
  | cons c cs1 =>
    simp only [citInnerPlus, Bool.and_eq_true, decide_eq_true_eq]
    constructor
    · rintro ⟨hc, hs⟩
      obtain ⟨tok, rest, heq, htok, htail⟩ := citInnerStar_elim cs1 hs
      refine ⟨c :: tok, rest, by simp [heq], by simp, fun x hx => ?_, htail⟩
      rcases List.mem_cons.mp hx with rfl | hx'
      · exact hc
      · exact htok x hx'
    · rintro ⟨tok, rest, heq, hne, htok, htail⟩
      cases tok with
      | nil => exact absurd rfl hne
      | cons a as =>
        obtain ⟨h1, h2⟩ : c = a ∧ cs1 = as ++ rest := by
          injection heq with ha hb
          exact ⟨ha, hb⟩
        subst h1; subst h2
        exact ⟨htok c (by simp),
          citInnerStar_of as rest (fun x hx => htok x (by simp [hx])) htail⟩

/-- Characterization of the anchored citation pattern. -/
theorem citTryAt_iff (cs : List Char) :
    citTryAt cs = true ↔ ∃ tok ds post, cs = '[' :: (tok ++ ' ' :: 'p' :: (ds ++ ']' :: post))
      ∧ tok ≠ [] ∧ (∀ c ∈ tok, c ≠ ']') ∧ ds ≠ [] ∧ (∀ c ∈ ds, c.isDigit = true) := by
  cases cs with
  | nil =>
    simp only [citTryAt]
    constructor
    · intro h; simp at h
    · rintro ⟨tok, ds, post, heq, -⟩; simp at heq
  | cons c rest =>
    simp only [citTryAt, Bool.and_eq_true, decide_eq_true_eq]
    constructor
    · rintro ⟨hc, hp⟩
      obtain ⟨tok, rest2, heq, hne, htok, htail⟩ := (citInnerPlus_iff rest).mp hp
      obtain ⟨ds, post, heq2, hdne, hds⟩ := (citTail_iff rest2).mp htail
      subst hc
      exact ⟨tok, ds, post, by rw [heq, heq2], hne, htok, hdne, hds⟩
    · rintro ⟨tok, ds, post, heq, hne, htok, hdne, hds⟩
      obtain ⟨h1, h2⟩ : c = '[' ∧ rest = tok ++ ' ' :: 'p' :: (ds ++ ']' :: post) := by
        injection heq with ha hb
        exact ⟨ha, hb⟩
      subst h1; subst h2
      exact ⟨rfl, (citInnerPlus_iff _).mpr
        ⟨tok, _, rfl, hne, htok, (citTail_iff _).mpr ⟨ds, post, rfl, hdne, hds⟩⟩⟩

/-- A successful search exhibits a match position. -/
theorem citSearch_elim (cs : List Char) (h : citSearch cs = true) :
    ∃ pre suf, cs = pre ++ suf ∧ citTryAt suf = true := by
  induction cs with
  | nil => simp [citSearch, citTryAt] at h
  | cons c rest ih =>
    simp only [citSearch, Bool.or_eq_true] at h
    rcases h with h1 | h2
    · exact ⟨[], c :: rest, rfl, h1⟩
    · obtain ⟨pre, suf, heq, ht⟩ := ih h2
      exact ⟨c :: pre, suf, by simp [heq], ht⟩

/-- A match at any position makes the search succeed. -/
theorem citSearch_of (pre suf : List Char) (h : citTryAt suf = true) :
    citSearch (pre ++ suf) = true := by
  induction pre with
  | nil =>
    cases suf with
    | nil => simp [citTryAt] at h
    | cons c rest =>
      simp only [List.nil_append, citSearch, Bool.or_eq_true]
      exact Or.inl h
  | cons c pres ih =>
    simp only [List.cons_append, citSearch, Bool.or_eq_true]
    exact Or.inr ih

/-- The grounding check succeeds exactly on strings containing a
well-formed citation marker. -/
theorem check_grounded_iff_citation (a : String) :
    check_grounded a = true ↔ CitationAt a := by
  unfold check_grounded CitationAt
  constructor
  · intro h
    obtain ⟨pre, suf, heq, ht⟩ := citSearch_elim a.data h
    obtain ⟨tok, ds, post, heq2, hne, htok, hdne, hds⟩ := (citTryAt_iff suf).mp ht
    exact ⟨pre, tok, ds, post, by rw [heq, heq2], hne, htok, hdne, hds⟩
  · rintro ⟨pre, tok, ds, post, heq, hne, htok, hdne, hds⟩
    rw [heq]
    exact citSearch_of pre _ ((citTryAt_iff _).mpr ⟨tok, ds, post, rfl, hne, htok, hdne, hds⟩)

/-- C6: `check_grounded` returns true exactly for answers containing a
bracketed citation token followed by a space and a page token `p` plus
digits; in particular it accepts `See [Finance_Guide p3] for details.`
and rejects `No citation here.`, and the critic never alters the answer
field. -/
theorem c6_grounding_predicate :
    (∀ a : String, check_grounded a = true ↔ CitationAt a)
    ∧ check_grounded "See [Finance_Guide p3] for details." = true
    ∧ check_grounded "No citation here." = false
    ∧ ∀ (s : AgentState Doc Meta Dist), (critic_node s).answer = s.answer :=
  ⟨check_grounded_iff_citation, by decide, by decide, fun _ => rfl⟩

end PWB
